import Mathlib

/-!
Verification of the PicoServe HTTP front door: route-table construction,
proxy-rule loading (environment substitution, JSON validation), the two-tier
rate-limiting model, plugin loading, and the proxy forwarding/error hooks.

Shallow embedding of `src/server.ts`, `src/api/proxy.ts` and the plugin
loader (`src/api/loader.ts`).  JavaScript strings become `String`, JSON
values become the `Json` inductive below, `undefined`/missing values become
`Option`, and registration effects on the Express `app` become an explicit
ordered list of route-table entries.
-/

namespace PicoServe

/-- Model of a parsed JSON value (the value space produced by `JSON.parse`).
Numbers are modelled as integers; none of the verified code depends on
fractional values. -/
inductive Json where
  | null
  | bool (b : Bool)
  | num (n : Int)
  | str (s : String)
  | arr (xs : List Json)
  | obj (fields : List (String × Json))
deriving Repr

/-- Member access `j.k` on a parsed JSON value: defined fields of objects are
found, everything else (non-objects, absent fields) is `undefined`,
modelled as `none`. -/
def Json.getMember (j : Json) (k : String) : Option Json :=
  match j with
  | .obj fields => (fields.find? fun p => decide (p.1 = k)).map Prod.snd
  | _ => none

/-! ## Environment-variable substitution (`substituteEnvVariables`, proxy.ts 14-25)

The source performs a global regex replace of `$\x7b([^\x7d]+)\x7d` over the
file content.  `substChars` is the operational model of that replace: scan
left to right; at each position where `$\x7b` is followed by at least one
non-`\x7d` character and then a `\x7d`, the captured variable name is looked
up in the environment — defined variables are replaced by their value,
undefined ones are kept verbatim and a warning is recorded — and scanning
resumes after the match; at every other position the character is copied
unchanged. -/

/-- `s.startsWith pre`, computed on the character lists (kernel-reducible,
unlike the byte-position-based core functions). -/
def strHasPre (s pre : String) : Bool :=
  pre.data.isPrefixOf s.data

/-- `s.endsWith sfx`, computed on the character lists. -/
def strHasSuf (s sfx : String) : Bool :=
  sfx.data.isSuffixOf s.data

/-- `s.split('/')` on character lists (used for express route patterns). -/
def splitSlash (s : String) : List String :=
  go [] s.data
where
  go (acc : List Char) : List Char → List String
    | [] => [acc.reverse.asString]
    | c :: rest => if c = '/' then acc.reverse.asString :: go [] rest else go (c :: acc) rest

/-- The environment (`process.env`): an association list of defined variables. -/
abbrev Env := List (String × String)

/-- `process.env[name]`: `none` models `undefined`. -/
def lookupEnv (env : Env) (name : String) : Option String :=
  (env.find? fun p => decide (p.1 = name)).map Prod.snd

/-- Split a character list at the first closing brace `\x7d`: returns the
characters before it and the characters after it, or `none` when there is no
closing brace.  This is how the regex capture `([^\x7d]+)` ends. -/
def splitAtBrace : List Char → Option (List Char × List Char)
  | [] => none
  | c :: rest =>
      if c = '\x7d' then some ([], rest)
      else
        match splitAtBrace rest with
        | some (nm, r) => some (c :: nm, r)
        | none => none

theorem splitAtBrace_eq (l : List Char) :
    ∀ nm r, splitAtBrace l = some (nm, r) → l = nm ++ '\x7d' :: r := by
  induction l with
  | nil => intro nm r h; simp [splitAtBrace] at h
  | cons c rest ih =>
    intro nm r h
    by_cases hc : c = '\x7d'
    · simp [splitAtBrace, hc] at h
      obtain ⟨h1, h2⟩ := h
      simp [hc, ← h1, ← h2]
    · simp [splitAtBrace, hc] at h
      cases hsp : splitAtBrace rest with
      | none => rw [hsp] at h; simp at h
      | some p =>
        rw [hsp] at h
        obtain ⟨nm', r'⟩ := p
        simp at h
        obtain ⟨h1, h2⟩ := h
        have := ih nm' r' (by rw [hsp])
        subst h2
        rw [← h1]
        simp [this]

theorem splitAtBrace_length {l nm r} (h : splitAtBrace l = some (nm, r)) :
    r.length < l.length := by
  have := splitAtBrace_eq l nm r h
  subst this
  simp
  omega

/-- The warning message logged for an undefined variable (proxy.ts 18-20). -/
def warnMessage (name : String) : String :=
  "Environment variable " ++ name ++ " is not defined, keeping placeholder"

/-- Operational model of
`content.replace(/\$\x7b([^\x7d]+)\x7d/g, cb)` with the callback of
proxy.ts 15-24: returns the substituted characters together with the
warnings emitted by the callback, in order. -/
def substChars (env : Env) (l : List Char) : List Char × List String :=
  match l with
  | '$' :: '\x7b' :: rest =>
      match hsp : splitAtBrace rest with
      | some (nm, r) =>
          if nm = [] then
            -- `([^\x7d]+)` needs at least one character: no match starts here,
            -- the scan advances past the `$`.
            let p := substChars env ('\x7b' :: rest)
            ('$' :: p.1, p.2)
          else
            match lookupEnv env (String.mk nm) with
            | some v =>
                let p := substChars env r
                (v.data ++ p.1, p.2)
            | none =>
                let p := substChars env r
                ('$' :: '\x7b' :: (nm ++ '\x7d' :: p.1),
                 warnMessage (String.mk nm) :: p.2)
      | none =>
          -- no closing brace anywhere to the right: no match starts here
          let p := substChars env ('\x7b' :: rest)
          ('$' :: p.1, p.2)
  | c :: rest =>
      let p := substChars env rest
      (c :: p.1, p.2)
  | [] => ([], [])
termination_by l.length
decreasing_by
  all_goals first
    | (have hlen := splitAtBrace_length hsp; simp; omega)
    | (simp; omega)
    | simp

/-- `substituteEnvVariables` (proxy.ts 14-25): the substituted content
together with the `console.warn` messages it emits. -/
def substituteEnvVariables (env : Env) (content : String) : String × List String :=
  ((substChars env content.data).1.asString, (substChars env content.data).2)

/-- A segment of the input of `substituteEnvVariables`: either a character
outside every placeholder occurrence, or one placeholder occurrence
`$\x7b name \x7d`. -/
inductive Seg where
  | lit (c : Char)
  | var (name : String)
deriving Repr, DecidableEq

/-- Decomposition of a string into literal characters and placeholder
occurrences, by the same left-to-right scan the regex engine performs.
Independent of the environment. -/
def scanSegs (l : List Char) : List Seg :=
  match l with
  | '$' :: '\x7b' :: rest =>
      match hsp : splitAtBrace rest with
      | some (nm, r) =>
          if nm = [] then .lit '$' :: scanSegs ('\x7b' :: rest)
          else .var (String.mk nm) :: scanSegs r
      | none => .lit '$' :: scanSegs ('\x7b' :: rest)
  | c :: rest => .lit c :: scanSegs rest
  | [] => []
termination_by l.length
decreasing_by
  all_goals first
    | (have hlen := splitAtBrace_length hsp; simp; omega)
    | (simp; omega)
    | simp

/-- Rendering a segment back as the exact input text it came from. -/
def renderSeg : Seg → List Char
  | .lit c => [c]
  | .var nm => '$' :: '\x7b' :: (nm.data ++ ['\x7d'])

/-- What the substitution produces for one segment: literal characters are
unchanged; a placeholder becomes the variable's value when defined and stays
verbatim when undefined. -/
def applySeg (env : Env) : Seg → List Char
  | .lit c => [c]
  | .var nm =>
      match lookupEnv env nm with
      | some v => v.data
      | none => '$' :: '\x7b' :: (nm.data ++ ['\x7d'])

/-- The warning one segment triggers: only an undefined placeholder warns. -/
def segWarning (env : Env) : Seg → Option String
  | .lit _ => none
  | .var nm => if (lookupEnv env nm).isNone then some (warnMessage nm) else none

theorem substChars_emptyName (env : Env) (rest r : List Char)
    (hsp : splitAtBrace rest = some ([], r)) :
    substChars env ('$' :: '\x7b' :: rest) =
      ('$' :: (substChars env ('\x7b' :: rest)).1, (substChars env ('\x7b' :: rest)).2) := by
  rw [substChars]
  split
  next nm' r' heq =>
    rw [hsp] at heq
    injection heq with h
    injection h with h1 h2
    subst h1; subst h2
    simp
  next heq => simp

theorem substChars_var (env : Env) (rest nm r : List Char)
    (hsp : splitAtBrace rest = some (nm, r)) (hnm : nm ≠ []) :
    substChars env ('$' :: '\x7b' :: rest) =
      (match lookupEnv env (String.mk nm) with
       | some v => (v.data ++ (substChars env r).1, (substChars env r).2)
       | none => ('$' :: '\x7b' :: (nm ++ '\x7d' :: (substChars env r).1),
                  warnMessage (String.mk nm) :: (substChars env r).2)) := by
  rw [substChars]
  split
  next nm' r' heq =>
    rw [hsp] at heq
    injection heq with h
    injection h with h1 h2
    subst h1; subst h2
    simp [hnm]
  next heq => rw [hsp] at heq; exact absurd heq (by simp)

theorem substChars_noClose (env : Env) (rest : List Char)
    (hsp : splitAtBrace rest = none) :
    substChars env ('$' :: '\x7b' :: rest) =
      ('$' :: (substChars env ('\x7b' :: rest)).1, (substChars env ('\x7b' :: rest)).2) := by
  rw [substChars]
  split
  next nm' r' heq => rw [hsp] at heq; exact absurd heq (by simp)
  next heq => simp

theorem scanSegs_emptyName (rest r : List Char)
    (hsp : splitAtBrace rest = some ([], r)) :
    scanSegs ('$' :: '\x7b' :: rest) = .lit '$' :: scanSegs ('\x7b' :: rest) := by
  rw [scanSegs]
  split
  next nm' r' heq =>
    rw [hsp] at heq
    injection heq with h
    injection h with h1 h2
    subst h1; subst h2
    simp
  next heq => simp

theorem scanSegs_var (rest nm r : List Char)
    (hsp : splitAtBrace rest = some (nm, r)) (hnm : nm ≠ []) :
    scanSegs ('$' :: '\x7b' :: rest) = .var (String.mk nm) :: scanSegs r := by
  rw [scanSegs]
  split
  next nm' r' heq =>
    rw [hsp] at heq
    injection heq with h
    injection h with h1 h2
    subst h1; subst h2
    simp [hnm]
  next heq => rw [hsp] at heq; exact absurd heq (by simp)

theorem scanSegs_noClose (rest : List Char)
    (hsp : splitAtBrace rest = none) :
    scanSegs ('$' :: '\x7b' :: rest) = .lit '$' :: scanSegs ('\x7b' :: rest) := by
  rw [scanSegs]
  split
  next nm' r' heq => rw [hsp] at heq; exact absurd heq (by simp)
  next heq => simp

theorem substChars_eq_scan (env : Env) (l : List Char) :
    substChars env l =
      ((scanSegs l).flatMap (applySeg env), (scanSegs l).filterMap (segWarning env)) := by
  induction l using scanSegs.induct with
  | case1 rest r heq ih =>
    rw [substChars_emptyName env rest r heq, scanSegs_emptyName rest r heq, ih]
    simp [applySeg, segWarning]
  | case2 rest nm r heq hnm ih =>
    rw [substChars_var env rest nm r heq hnm, scanSegs_var rest nm r heq hnm]
    cases hl : lookupEnv env (String.mk nm) with
    | some v => simp [ih, applySeg, segWarning, hl]
    | none => simp [ih, applySeg, segWarning, hl]
  | case3 rest heq ih =>
    rw [substChars_noClose env rest heq, scanSegs_noClose rest heq, ih]
    simp [applySeg, segWarning]
  | case4 c rest h1 ih =>
    simp [substChars, scanSegs, applySeg, segWarning, ih]
  | case5 => simp [substChars, scanSegs]

theorem scanSegs_render (l : List Char) :
    (scanSegs l).flatMap renderSeg = l := by
  induction l using scanSegs.induct with
  | case1 rest r heq ih =>
    rw [scanSegs_emptyName rest r heq]
    simp [renderSeg, ih]
  | case2 rest nm r heq hnm ih =>
    rw [scanSegs_var rest nm r heq hnm]
    have hr := splitAtBrace_eq rest nm r heq
    simp [renderSeg, ih, hr]
  | case3 rest heq ih =>
    rw [scanSegs_noClose rest heq]
    simp [renderSeg, ih]
  | case4 c rest h1 ih =>
    simp [scanSegs, renderSeg, ih]
  | case5 => simp [scanSegs]

/-! ## Proxy rule configuration (`src/api/types.ts`, `src/api/proxy.ts`)

A rule read from the parsed config document.  A field that is absent (or
`undefined`) is `none`; the JavaScript truthiness test `!proxy.path` is false
exactly for a present, non-empty string. -/

/-- The `rateLimit` member of a rule's `options` (proxy.ts 123-141).  All
fields are optional in the document. -/
structure RateLimitCfg where
  windowMs : Option Int := none
  max : Option Int := none
  enabled : Option Bool := none
deriving Repr, DecidableEq

/-- The `options` member of a rule.  Only the parts the verified logic reads
are modelled; the user-supplied `onProxyReq`/`onProxyRes`/`onError` callbacks
are passed separately to the hook models below because they are functions. -/
structure ProxyOptions where
  rateLimit : Option RateLimitCfg := none
deriving Repr, DecidableEq

/-- One element of the `proxies` array (`ProxyConfig` in types.ts). -/
structure ProxyConfig where
  path : Option String := none
  target : Option String := none
  options : Option ProxyOptions := none
deriving Repr, DecidableEq

/-- JavaScript truthiness of a possibly-missing string: `undefined` and the
empty string are falsy. -/
def strTruthy : Option String → Bool
  | none => false
  | some s => !decide (s = "")

/-- JavaScript `a || d` over a possibly-missing number: `undefined` and `0`
fall back to the default. -/
def intOr (o : Option Int) (d : Int) : Int :=
  match o with
  | some v => if v = 0 then d else v
  | none => d

/-- `target.includes("$\x7b")` (proxy.ts 113): the unresolved-placeholder
test applied to a rule's target. -/
def containsDollarBrace (s : String) : Bool :=
  go s.data
where
  go : List Char → Bool
    | '$' :: '\x7b' :: _ => true
    | _ :: rest => go rest
    | [] => false

/-! ## Rate limiters

Modelled from the spec: the `express-rate-limit` package is an external
dependency whose source is not part of this repository; §4.3 of the spec
describes its contract — per-client counters partitioned into fixed windows
of `windowMs`, `check` increments the counter of the client's current window
and denies once the post-increment count exceeds `max`, and a denial is
answered with status `429` carrying the configured `message`. -/

/-- An HTTP response: status code and JSON body. -/
structure Response where
  status : Nat
  body : Json

/-- The options a limiter is constructed with (the fields of the
`rateLimit(...)` calls that the verified behavior depends on). -/
structure LimiterOptions where
  windowMs : Int
  max : Int
  message : Json

/-- The global limiter of server.ts 79-85: 15-minute window, max 1000,
plain-string message. -/
def globalLimiterOptions : LimiterOptions :=
  { windowMs := 15 * 60 * 1000
    max := 1000
    message := .str "Too many requests from this IP, please try again later." }

/-- The rule-scoped limiter of proxy.ts 123-141, built from the rule's
`options`: `options?.rateLimit || \x7bwindowMs: 60000, max: 100\x7d`, no
limiter at all when `enabled` is `false`, and `windowMs || 60000`,
`max || 100` defaults applied to the configured values.  Integer division
models the `/1000` in the message (the code only ever divides multiples of
1000 here when defaults apply). -/
def mkRuleLimiterOptions (options : Option ProxyOptions) : Option LimiterOptions :=
  let rlc := (options.bind ProxyOptions.rateLimit).getD
    { windowMs := some 60000, max := some 100, enabled := none }
  if rlc.enabled = some false then none
  else
    some
      { windowMs := intOr rlc.windowMs 60000
        max := intOr rlc.max 100
        message := .obj
          [("error", .str "Too many requests"),
           ("message", .str ("Please slow down. Maximum " ++ toString (intOr rlc.max 100)
              ++ " requests per " ++ toString (intOr rlc.windowMs 60000 / 1000)
              ++ " seconds."))] }

/-- Modelled from the spec (§4.3): per-client fixed-window counters of one
limiter instance, keyed by client identity and window index. -/
structure LimiterState where
  counters : List ((String × Int) × Nat)

/-- The window a request at time `now` falls into, and its counter key. -/
def windowKey (opts : LimiterOptions) (client : String) (now : Int) : String × Int :=
  (client, now / opts.windowMs)

/-- The client's counter in the current window (0 when none exists yet). -/
def currentCount (opts : LimiterOptions) (st : LimiterState) (client : String) (now : Int) : Nat :=
  ((st.counters.find? fun p => decide (p.1 = windowKey opts client now)).map Prod.snd).getD 0

/-- Modelled from the spec (§4.3): `check` increments the counter for the
current window and allows the request iff the post-increment count does not
exceed `max`. -/
def limiterCheck (opts : LimiterOptions) (st : LimiterState) (client : String) (now : Int) :
    Bool × LimiterState :=
  let c := currentCount opts st client now + 1
  (decide ((c : Int) ≤ opts.max),
   ⟨(windowKey opts client now, c) ::
      st.counters.filter fun p => !decide (p.1 = windowKey opts client now)⟩)

/-- Express mounting test of `app.use(path, mw)` (proxy.ts 140): the request
path equals the mount path or continues it after a `/`. -/
def mountMatches (mount reqPath : String) : Bool :=
  decide (reqPath = mount) || strHasPre reqPath (mount ++ "/")

/-- Outcome of sending one request through the limiter tiers. -/
inductive RequestOutcome where
  | denied (resp : Response)
  | forwarded

/-- The middleware chain a request to a proxied path passes through:
the global limiter (`app.use(limiter)`, server.ts 88) runs first on every
request, then — when the path matches the rule's mount — the rule-scoped
limiter (`app.use(proxy.path, limiter)`, proxy.ts 140).  Each tier answers
`429` with its own configured message on denial. -/
def handleThroughLimiters (ruleOpts : LimiterOptions) (rulePath : String)
    (gs rs : LimiterState) (client path : String) (now : Int) :
    RequestOutcome × LimiterState × LimiterState :=
  let g := limiterCheck globalLimiterOptions gs client now
  if !g.1 then (.denied ⟨429, globalLimiterOptions.message⟩, g.2, rs)
  else if mountMatches rulePath path then
    let rc := limiterCheck ruleOpts rs client now
    if !rc.1 then (.denied ⟨429, ruleOpts.message⟩, g.2, rc.2)
    else (.forwarded, g.2, rc.2)
  else (.forwarded, g.2, rs)

/-! ## The route table

Express dispatches a request to the first registered layer whose matcher
accepts it.  Registration is modelled as an ordered list of entries; each
entry records which piece of the source registered it (its kind) and its
matcher. -/

/-- An inbound request, as far as routing is concerned. -/
structure Request where
  method : String
  path : String
deriving Repr, DecidableEq

/-- How a registered layer decides whether a request is for it. -/
inductive Matcher where
  /-- `app.use(mw)` with no path: every request. -/
  | any
  /-- `app.get(pat, h)` / `app.post(pat, h)`: method plus express path
  pattern (segments starting with `:` are parameters). -/
  | route (method : String) (pattern : String)
  /-- `app.use(path, mw)`: path-mounted middleware. -/
  | mount (path : String)
  /-- The proxy middleware's `pathFilter` (proxy.ts 217-219):
  `pathname.startsWith(proxy.path)`. -/
  | startFilter (path : String)
deriving Repr, DecidableEq

/-- Express route-pattern matching, segment by segment: a `:`-parameter
segment matches any non-empty segment, otherwise segments must be equal. -/
def segsMatch : List String → List String → Bool
  | [], [] => true
  | p :: ps, s :: ss =>
      (if strHasPre p ":" then !decide (s = "") else decide (p = s)) && segsMatch ps ss
  | _, _ => false

def Matcher.matches : Matcher → Request → Bool
  | .any, _ => true
  | .route m pat, r => decide (r.method = m) && segsMatch (splitSlash pat) (splitSlash r.path)
  | .mount p, r => mountMatches p r.path
  | .startFilter p, r => strHasPre r.path p

/-- Which piece of the source registered an entry. -/
inductive HandlerKind where
  | globalLimiter
  | cors
  | jsonParser
  | health
  | pluginRoute (plugin : String)
  | ruleLimiter (rulePath : String)
  | proxyHandler (rulePath : String)
  | staticFiles
  | spaFallback
deriving Repr, DecidableEq

/-- One registered (matcher, handler) pair of the route table. -/
structure Entry where
  kind : HandlerKind
  matcher : Matcher
deriving Repr, DecidableEq

/-- First-match dispatch: the first registered entry whose matcher accepts
the request owns it. -/
def dispatch (table : List Entry) (r : Request) : Option Entry :=
  table.find? fun e => e.matcher.matches r

/-- The precedence tier of the ordering invariant: middleware preamble <
routes registered by plugins (incl. `/health`) < proxy-rule layers <
static files < SPA fallback. -/
def tierOf : HandlerKind → Nat
  | .globalLimiter => 0
  | .cors => 0
  | .jsonParser => 0
  | .health => 1
  | .pluginRoute _ => 1
  | .ruleLimiter _ => 2
  | .proxyHandler _ => 2
  | .staticFiles => 3
  | .spaFallback => 4

/-! ## The proxy plugin (default export of proxy.ts, lines 88-230) -/

/-- What one rule of the config document registers (the body of the `for`
loop, proxy.ts 104-229): nothing when `path` or `target` is falsy or the
target still contains `$\x7b`; otherwise the rule-scoped limiter mounted on
the rule's path (unless `rateLimit.enabled === false`) followed by the
forwarding middleware with its `startsWith` path filter. -/
def ruleEntries (rule : ProxyConfig) : List Entry :=
  if !(strTruthy rule.path && strTruthy rule.target) then []
  else if containsDollarBrace (rule.target.getD "") then []
  else
    let p := rule.path.getD ""
    (match mkRuleLimiterOptions rule.options with
     | some _ => [⟨.ruleLimiter p, .mount p⟩]
     | none => []) ++ [⟨.proxyHandler p, .startFilter p⟩]

/-- All entries the proxy plugin registers, given the loaded rule list
(`none` models `loadProxyConfig` returning `null`; the plugin registers
nothing and returns early when there is no config or it is empty,
proxy.ts 91-97). -/
def proxyPlugin (cfg : Option (List ProxyConfig)) : List Entry :=
  match cfg with
  | none => []
  | some [] => []
  | some rules => rules.flatMap ruleEntries

/-- A rule the loop actually builds a forwarding handler for: present
non-empty `path` and `target`, and no unresolved `$\x7b` in the target. -/
def validRule (rule : ProxyConfig) : Bool :=
  strTruthy rule.path && strTruthy rule.target
    && !containsDollarBrace (rule.target.getD "")

/-! ## The plugin loader (`loadApiPlugins`, src/api/loader.ts) -/

/-- How a candidate module behaves when the loader imports and invokes it:
its default export is not a function (skipped with a warning, loader.ts
42-45), the import or the registration call throws (caught and logged,
loader.ts 56-58), or the registration call succeeds after registering the
given entries. -/
inductive PluginBehavior where
  | notFunction
  | throws
  | registers (entries : List Entry)
deriving Repr, DecidableEq

/-- A file of the api directory together with its behavior when loaded. -/
structure PluginFile where
  name : String
  behavior : PluginBehavior
deriving Repr, DecidableEq

/-- `isProduction` (loader.ts 19): some file of the directory ends in `.js`. -/
def isProdOf (files : List PluginFile) : Bool :=
  files.any fun f => strHasSuf f.name ".js"

/-- The filter of loader.ts 21-33: js/ts files only, no `.d.ts`, the variant
matching the environment, and never the loader or types modules. -/
def isCandidate (isProduction : Bool) (file : String) : Bool :=
  (strHasSuf file ".js" || strHasSuf file ".ts")
    && !strHasSuf file ".d.ts"
    && !(isProduction && strHasSuf file ".ts")
    && !(!isProduction && strHasSuf file ".js")
    && !(decide (file = "loader.ts") || decide (file = "loader.js")
        || decide (file = "types.ts") || decide (file = "types.js")
        || decide (file = "types.d.ts"))

/-- `file.replace(/\.(js|ts)$/, '')` (loader.ts 51). -/
def stripExt (file : String) : String :=
  if strHasSuf file ".js" || strHasSuf file ".ts" then file.dropRight 3 else file

/-- The observable result of running the loader: the route-table entries
registered on the app, in order, and the names pushed to the `plugins`
metadata list (one per successful registration, loader.ts 50-53). -/
structure LoaderResult where
  entries : List Entry
  plugins : List String
deriving Repr, DecidableEq

/-- The loader's `for` loop (loader.ts 21-59), file by file in directory
order: non-candidates are skipped; a candidate whose default export is not a
function is skipped with a warning; a candidate that throws is caught and
logged; a successful candidate's registrations are appended and its name
recorded. -/
def runPlugins (isProduction : Bool) : List PluginFile → LoaderResult
  | [] => ⟨[], []⟩
  | f :: rest =>
      if isCandidate isProduction f.name then
        match f.behavior with
        | .registers es =>
            let r := runPlugins isProduction rest
            ⟨es ++ r.entries, stripExt f.name :: r.plugins⟩
        | _ => runPlugins isProduction rest
      else runPlugins isProduction rest

/-- `loadApiPlugins` (loader.ts 10-65): determine the environment from the
directory listing, then run every candidate sequentially. -/
def loadApiPlugins (files : List PluginFile) : LoaderResult :=
  runPlugins (isProdOf files) files

/-- The value `loadApiPlugins` returns to its caller.  The source signature
is `Promise<void>` (loader.ts 10): the promise resolves with no value; the
plugin count is only written to the log (loader.ts 61), never returned. -/
def loadApiPluginsReturn (files : List PluginFile) : Unit :=
  ()

/-- A candidate whose exported callable was invoked and completed without
failure — exactly the files the loader pushes to its `plugins` list. -/
def loadsSuccessfully (isProduction : Bool) (f : PluginFile) : Bool :=
  isCandidate isProduction f.name &&
    match f.behavior with
    | .registers _ => true
    | _ => false

/-- What one file contributes to the registered entries. -/
def fileEntries (f : PluginFile) : List Entry :=
  match f.behavior with
  | .registers es => es
  | _ => []

theorem runPlugins_characterization (isProduction : Bool) (files : List PluginFile) :
    runPlugins isProduction files =
      ⟨(files.filter (loadsSuccessfully isProduction)).flatMap fileEntries,
       (files.filter (loadsSuccessfully isProduction)).map fun f => stripExt f.name⟩ := by
  induction files with
  | nil => simp [runPlugins]
  | cons f rest ih =>
    by_cases hc : isCandidate isProduction f.name = true
    · cases hb : f.behavior with
      | registers es =>
        simp [runPlugins, hc, hb, ih, loadsSuccessfully, fileEntries]
      | notFunction =>
        simp [runPlugins, hc, hb, ih, loadsSuccessfully]
      | throws =>
        simp [runPlugins, hc, hb, ih, loadsSuccessfully]
    · simp [runPlugins, hc, ih, loadsSuccessfully]

/-! ## Header forwarding (the `proxyReq` hook, proxy.ts 155-182) -/

/-- An HTTP header map.  Node lowercases inbound header names, so the hook
reads the keys `cookie` and `authorization` literally. -/
abbrev Headers := List (String × String)

/-- Reading a header: `none` models `undefined` (header absent). -/
def getHeader (hs : Headers) (k : String) : Option String :=
  (hs.find? fun p => decide (p.1 = k)).map Prod.snd

/-- `proxyReq.setHeader(k, v)`: replaces any existing value of `k`. -/
def setHeader (hs : Headers) (k v : String) : Headers :=
  (hs.filter fun p => !decide (p.1 = k)) ++ [(k, v)]

/-- JavaScript truthiness of `req.headers[k]`: present and non-empty. -/
def headerTruthy (hs : Headers) (k : String) : Bool :=
  match getHeader hs k with
  | some s => !decide (s = "")
  | none => false

/-- The `proxyReq` hook (proxy.ts 155-182) acting on the outbound request's
headers: after the logging, a truthy inbound `cookie` and a truthy inbound
`authorization` are copied onto the outbound request with `setHeader`; then,
if the user config supplied a custom `onProxyReq` callback, it is invoked
on the result. -/
def onProxyReqHook (custom : Option (Headers → Headers)) (inbound outbound : Headers) : Headers :=
  let o1 := if headerTruthy inbound "cookie"
            then setHeader outbound "cookie" ((getHeader inbound "cookie").getD "")
            else outbound
  let o2 := if headerTruthy inbound "authorization"
            then setHeader o1 "authorization" ((getHeader inbound "authorization").getD "")
            else o1
  match custom with
  | some h => h o2
  | none => o2

/-! ## The transport-error hook (proxy.ts 192-210) -/

/-- The error object delivered to the `error` hook. -/
structure ProxyErr where
  message : String
  code : String
deriving Repr, DecidableEq

/-- The response the built-in `error` hook writes: when the user supplied a
custom `onError` callback it is called instead and the built-in writes
nothing (`none`); otherwise, if no headers have been sent yet, a `502` with
the structured JSON body of proxy.ts 202-208; with headers already sent,
nothing. -/
def onErrorResponse (target : String) (hasCustomOnError headersSent : Bool)
    (err : ProxyErr) (reqUrl : String) : Option Response :=
  if hasCustomOnError then none
  else if !headersSent then
    some ⟨502, .obj
      [("error", .str "Proxy Error"),
       ("message", .str ("Failed to connect to " ++ target)),
       ("details", .str err.message),
       ("code", .str err.code),
       ("path", .str reqUrl)]⟩
  else none

/-! ## Loading the config document (`loadProxyConfig`, proxy.ts 33-59) -/

/-- Extraction of the fields the plugin reads from one element of the
`proxies` array.  A field that is absent or not of the expected shape is
modelled as missing (`none`); for `rateLimit` a falsy or non-object value
falls back to the same defaults the source's `|| \x7b...\x7d` produces. -/
def toRateLimitCfg (j : Json) : Option RateLimitCfg :=
  match j with
  | .obj _ =>
      some
        { windowMs := match j.getMember "windowMs" with | some (.num n) => some n | _ => none
          max := match j.getMember "max" with | some (.num n) => some n | _ => none
          enabled := match j.getMember "enabled" with | some (.bool b) => some b | _ => none }
  | _ => none

def toProxyConfig (j : Json) : ProxyConfig :=
  { path := match j.getMember "path" with | some (.str s) => some s | _ => none
    target := match j.getMember "target" with | some (.str s) => some s | _ => none
    options := match j.getMember "options" with
      | some (.obj fs) => some { rateLimit := (Json.obj fs).getMember "rateLimit" |>.bind toRateLimitCfg }
      | _ => none }

/-- `loadProxyConfig` (proxy.ts 33-59).  `parseJson` is the external
`JSON.parse` collaborator (`none` models a thrown `SyntaxError`, which the
`catch` turns into `null`); `fileExists` models `existsSync(configPath)`.
The file content is substituted before parsing, `config.proxies` must be an
array (else `null`), and the raw array is returned. -/
def loadProxyConfig (parseJson : String → Option Json) (env : Env)
    (fileExists : Bool) (content : String) : Option (List Json) :=
  if !fileExists then none
  else
    match parseJson (substituteEnvVariables env content).1 with
    | none => none
    | some j =>
        match j.getMember "proxies" with
        | some (.arr xs) => some xs
        | _ => none

/-- The full pipeline from the config document to the entries the proxy
plugin registers (proxy.ts 88-97 feeding the rule loop). -/
def proxyPluginFromFile (parseJson : String → Option Json) (env : Env)
    (fileExists : Bool) (content : String) : List Entry :=
  proxyPlugin ((loadProxyConfig parseJson env fileExists content).map fun xs => xs.map toProxyConfig)

/-! ## The server's route table (server.ts) -/

/-- What each demo plugin of `src/api` registers (their default exports). -/
def appConfigEntries : List Entry :=
  [⟨.pluginRoute "app.config", .route "GET" "/app.config.json"⟩]

def exampleEntries : List Entry :=
  [⟨.pluginRoute "example", .route "GET" "/api/example"⟩,
   ⟨.pluginRoute "example", .route "GET" "/api/example/:id"⟩,
   ⟨.pluginRoute "example", .route "POST" "/api/example"⟩]

def helloEntries : List Entry :=
  [⟨.pluginRoute "hello", .route "GET" "/bff/hello"⟩,
   ⟨.pluginRoute "hello", .route "GET" "/bff/user-data"⟩]

/-- The `src/api` directory as the loader sees it in development mode
(lexicographic `readdirSync` order), with each module's behavior:
`loader.ts` and `types.ts` export no default function, `README.md` is not a
candidate, and `proxy.ts` registers whatever the loaded rule list dictates. -/
def apiDirFiles (cfg : Option (List ProxyConfig)) : List PluginFile :=
  [⟨"README.md", .notFunction⟩,
   ⟨"app.config.ts", .registers appConfigEntries⟩,
   ⟨"example.ts", .registers exampleEntries⟩,
   ⟨"hello.ts", .registers helloEntries⟩,
   ⟨"loader.ts", .notFunction⟩,
   ⟨"proxy.ts", .registers (proxyPlugin cfg)⟩,
   ⟨"types.ts", .notFunction⟩]

/-- The route table the server builds (server.ts 73-132): global limiter,
CORS, JSON body parser, `/health`, then every plugin registration in loader
order, then — only after `loadApiPlugins` resolves — the static file
handler and the SPA fallback. -/
def serverRouteTable (cfg : Option (List ProxyConfig)) : List Entry :=
  ⟨.globalLimiter, .any⟩ :: ⟨.cors, .any⟩ :: ⟨.jsonParser, .any⟩ ::
    ⟨.health, .route "GET" "/health"⟩ ::
    ((loadApiPlugins (apiDirFiles cfg)).entries ++
      [⟨.staticFiles, .any⟩, ⟨.spaFallback, .any⟩])

/-! ## Claim theorems -/

/-- C6: For every input string, `substituteEnvVariables` acts per placeholder
occurrence of the input's scan decomposition — a placeholder `$\x7bX\x7d`
becomes the value of `X` when `X` is defined and stays literally
`$\x7bX\x7d` with a warning when it is not, while every character outside a
placeholder is unchanged — and the decomposition renders back to exactly the
input. -/
theorem substitution_per_placeholder (env : Env) (content : String) :
    (substituteEnvVariables env content).1 =
      ((scanSegs content.data).flatMap (applySeg env)).asString ∧
    (substituteEnvVariables env content).2 =
      (scanSegs content.data).filterMap (segWarning env) ∧
    ((scanSegs content.data).flatMap renderSeg).asString = content := by
  have h := substChars_eq_scan env content.data
  refine ⟨?_, ?_, ?_⟩
  · simp [substituteEnvVariables, h]
  · simp [substituteEnvVariables, h]
  · rw [scanSegs_render]
    rfl

/-- An entry of the route table that is a proxy forwarding handler. -/
def isProxyHandlerEntry (e : Entry) : Bool :=
  match e.kind with
  | .proxyHandler _ => true
  | _ => false

theorem proxyPlugin_some (rules : List ProxyConfig) :
    proxyPlugin (some rules) = rules.flatMap ruleEntries := by
  cases rules <;> rfl

theorem countP_ruleEntries (rule : ProxyConfig) :
    (ruleEntries rule).countP isProxyHandlerEntry = if validRule rule then 1 else 0 := by
  unfold ruleEntries validRule
  by_cases h1 : (strTruthy rule.path && strTruthy rule.target) = true
  · by_cases h2 : containsDollarBrace (rule.target.getD "") = true
    · simp [h1, h2]
    · cases h3 : mkRuleLimiterOptions rule.options <;>
        simp [h1, h2, h3, isProxyHandlerEntry, List.countP, List.countP.go]
  · cases hp : strTruthy rule.path <;> cases ht : strTruthy rule.target <;>
      simp [hp, ht] at h1 ⊢

/-- C2: For every rule document, the number of proxy forwarding handlers the
plugin registers equals the number of rules with a (present, non-empty)
`path` and `target` whose target contains no unresolved `$\x7b` after
substitution. -/
theorem proxy_handler_count (rules : List ProxyConfig) :
    (proxyPlugin (some rules)).countP isProxyHandlerEntry = rules.countP validRule := by
  rw [proxyPlugin_some]
  induction rules with
  | nil => rfl
  | cons r rest ih =>
    rw [List.flatMap_cons, List.countP_append, List.countP_cons, countP_ruleEntries, ih]
    by_cases h : validRule r = true <;> simp [h] <;> omega

/-- C5: For every transport error on a rule without a custom `onError` hook
and with no headers sent yet, the built-in hook answers `502` with a JSON
body whose `error` field is "Proxy Error", whose `path` field is the request
path, and which carries `message`, `details` and `code` fields. -/
theorem proxy_error_response (target reqUrl : String) (err : ProxyErr) :
    ∃ resp, onErrorResponse target false false err reqUrl = some resp ∧
      resp.status = 502 ∧
      resp.body.getMember "error" = some (.str "Proxy Error") ∧
      resp.body.getMember "message" = some (.str ("Failed to connect to " ++ target)) ∧
      resp.body.getMember "details" = some (.str err.message) ∧
      resp.body.getMember "code" = some (.str err.code) ∧
      resp.body.getMember "path" = some (.str reqUrl) := by
  refine ⟨_, rfl, rfl, ?_, ?_, ?_, ?_, ?_⟩ <;> rfl

theorem find?_filter_of_imp {α} (l : List α) (q r : α → Bool)
    (h : ∀ x, q x = true → r x = true) :
    (l.filter r).find? q = l.find? q := by
  induction l with
  | nil => rfl
  | cons x xs ih =>
    by_cases hq : q x = true
    · have hr := h x hq
      simp [List.filter_cons, hr, List.find?_cons, hq, ih]
    · by_cases hr : r x = true <;>
        simp [List.filter_cons, hr, List.find?_cons, hq, ih]

theorem getHeader_setHeader_self (hs : Headers) (k v : String) :
    getHeader (setHeader hs k v) k = some v := by
  unfold getHeader setHeader
  rw [List.find?_append]
  have hnone : (hs.filter fun p => !decide (p.1 = k)).find? (fun p => decide (p.1 = k)) = none := by
    rw [List.find?_eq_none]
    intro p hp
    have := List.of_mem_filter hp
    simp at this ⊢
    exact this
  rw [hnone]
  simp [List.find?]

theorem getHeader_setHeader_other (hs : Headers) (k v k' : String) (hk : k' ≠ k) :
    getHeader (setHeader hs k v) k' = getHeader hs k' := by
  unfold getHeader setHeader
  rw [List.find?_append]
  rw [find?_filter_of_imp hs (fun p => decide (p.1 = k')) (fun p => !decide (p.1 = k))
    (by intro x hx; simp at hx ⊢; rw [hx]; exact hk)]
  cases hf : hs.find? fun p => decide (p.1 = k') with
  | none =>
    have hk2 : ¬(k = k') := fun hh => hk hh.symm
    simp [List.find?, hk2]
  | some p => simp

/-- C4: For every inbound request, a (truthy) `Cookie` header and a (truthy)
`Authorization` header are copied onto the outbound upstream request by the
built-in `proxyReq` hook, and a caller-supplied custom hook runs only after
that built-in forwarding, on its result. -/
theorem auth_header_forwarding (inbound outbound : Headers) :
    (∀ c, getHeader inbound "cookie" = some c → c ≠ "" →
      getHeader (onProxyReqHook none inbound outbound) "cookie" = some c) ∧
    (∀ a, getHeader inbound "authorization" = some a → a ≠ "" →
      getHeader (onProxyReqHook none inbound outbound) "authorization" = some a) ∧
    (∀ h, onProxyReqHook (some h) inbound outbound = h (onProxyReqHook none inbound outbound)) := by
  refine ⟨?_, ?_, ?_⟩
  · intro c hc hc0
    unfold onProxyReqHook headerTruthy
    rw [hc]
    simp [hc0]
    by_cases ha : (match getHeader inbound "authorization" with
        | some s => !decide (s = "") | none => false) = true
    · simp only [ha, if_true]
      rw [getHeader_setHeader_other _ "authorization" _ "cookie" (by decide),
        getHeader_setHeader_self]
    · simp [ha, getHeader_setHeader_self]
  · intro a ha ha0
    unfold onProxyReqHook headerTruthy
    rw [ha]
    simp [ha0, getHeader_setHeader_self]
  · intro h
    unfold onProxyReqHook
    simp

theorem mkRuleLimiterOptions_message (options : Option ProxyOptions) (l : LimiterOptions)
    (h : mkRuleLimiterOptions options = some l) : ∃ fs, l.message = .obj fs := by
  unfold mkRuleLimiterOptions at h
  dsimp only at h
  split at h
  · exact absurd h (by simp)
  · injection h with h2
    exact ⟨_, congrArg LimiterOptions.message h2.symm⟩

/-- C3: For every request denied by a limiter tier the response is a `429`
carrying that tier's message: a client over the rule-scoped limiter's `max`
but under the global limiter's threshold is answered with the rule-specific
message (which always differs from the global one), while a client over the
global limiter's threshold is answered with the global message. -/
theorem rate_limit_tier_messages (options : Option ProxyOptions) (ro : LimiterOptions)
    (rulePath : String) (hro : mkRuleLimiterOptions options = some ro)
    (gs rs : LimiterState) (client path : String) (now : Int)
    (hpath : mountMatches rulePath path = true)
    (hunder : ((currentCount globalLimiterOptions gs client now + 1 : Nat) : Int) ≤
      globalLimiterOptions.max)
    (hover : ¬ ((currentCount ro rs client now + 1 : Nat) : Int) ≤ ro.max) :
    (handleThroughLimiters ro rulePath gs rs client path now).1 = .denied ⟨429, ro.message⟩ ∧
    ro.message ≠ globalLimiterOptions.message ∧
    ∀ gs2 : LimiterState,
      ¬ ((currentCount globalLimiterOptions gs2 client now + 1 : Nat) : Int) ≤
        globalLimiterOptions.max →
      (handleThroughLimiters ro rulePath gs2 rs client path now).1 =
        .denied ⟨429, globalLimiterOptions.message⟩ := by
  refine ⟨?_, ?_, ?_⟩
  · unfold handleThroughLimiters limiterCheck
    dsimp only
    rw [decide_eq_true hunder, decide_eq_false hover]
    simp [hpath]
  · obtain ⟨fs, hm⟩ := mkRuleLimiterOptions_message options ro hro
    rw [hm]
    unfold globalLimiterOptions
    intro hcon
    exact Json.noConfusion hcon
  · intro gs2 hg
    unfold handleThroughLimiters limiterCheck
    dsimp only
    rw [decide_eq_false hg]
    simp

/-- C7: For every config document that fails to parse as JSON after
substitution, and for every parsed document whose top-level `proxies` member
is not an array, `loadProxyConfig` returns `null` and the proxy plugin
registers no entries at all — the document is never partially applied. -/
theorem config_load_atomic (parseJson : String → Option Json) (env : Env) (content : String)
    (h : ∀ j, parseJson (substituteEnvVariables env content).1 = some j →
      ∀ xs, j.getMember "proxies" ≠ some (.arr xs)) :
    loadProxyConfig parseJson env true content = none ∧
    proxyPluginFromFile parseJson env true content = [] := by
  have hl : loadProxyConfig parseJson env true content = none := by
    unfold loadProxyConfig
    cases hp : parseJson (substituteEnvVariables env content).1 with
    | none => simp
    | some j =>
      cases hm : j.getMember "proxies" with
      | none => simp [hm]
      | some v =>
        cases v with
        | arr xs => exact absurd hm (h j hp xs)
        | null => simp [hm]
        | bool b => simp [hm]
        | num n => simp [hm]
        | str s => simp [hm]
        | obj fs => simp [hm]
  exact ⟨hl, by unfold proxyPluginFromFile; rw [hl]; rfl⟩

/-- C8: A candidate plugin that throws during loading or registration does
not prevent any later candidate from loading: a successful candidate `b`
appearing after a throwing candidate `a` is still recorded in the loader's
plugin list and its route registrations still appear in the table. -/
theorem plugin_failure_isolation (pre mid post : List PluginFile) (a b : PluginFile)
    (es : List Entry)
    (ha : a.behavior = .throws)
    (hbc : isCandidate (isProdOf (pre ++ a :: mid ++ b :: post)) b.name = true)
    (hb : b.behavior = .registers es) :
    stripExt b.name ∈ (loadApiPlugins (pre ++ a :: mid ++ b :: post)).plugins ∧
    ∃ l1 l2, (loadApiPlugins (pre ++ a :: mid ++ b :: post)).entries = l1 ++ es ++ l2 := by
  rw [loadApiPlugins, runPlugins_characterization]
  have hok : loadsSuccessfully (isProdOf (pre ++ a :: mid ++ b :: post)) b = true := by
    unfold loadsSuccessfully
    rw [hbc, hb]
    rfl
  have hbad : ∀ p, loadsSuccessfully p a = false := by
    intro p
    unfold loadsSuccessfully
    rw [ha]
    simp
  constructor
  · simp only [List.mem_map]
    refine ⟨b, List.mem_filter.mpr ⟨?_, hok⟩, rfl⟩
    simp
  · refine ⟨((pre.filter (loadsSuccessfully (isProdOf (pre ++ a :: mid ++ b :: post)))
        ++ mid.filter (loadsSuccessfully (isProdOf (pre ++ a :: mid ++ b :: post)))).flatMap
          fileEntries),
      ((post.filter (loadsSuccessfully (isProdOf (pre ++ a :: mid ++ b :: post)))).flatMap
          fileEntries), ?_⟩
    simp only [List.filter_append, List.filter_cons, hbad, hok]
    simp [List.flatMap_append, fileEntries, hb]

/-- C9 counterexample: `loadApiPlugins` resolves with no value
(`Promise<void>`) — its returned value is identical for directories with
different numbers of successfully loaded plugins, so the operation does not
return the count (it only logs it). -/
theorem loader_return_is_void :
    loadApiPluginsReturn [⟨"hello.ts", .registers []⟩] = loadApiPluginsReturn [] ∧
    (loadApiPlugins [⟨"hello.ts", .registers []⟩]).plugins.length ≠
      (loadApiPlugins []).plugins.length := by
  exact ⟨rfl, by decide⟩

/-- C9 (amended): the loader reports — in its final log line, not as a
return value — the length of its `plugins` list, which equals the number of
candidates whose exported callable was invoked without failure. -/
theorem loader_success_count (files : List PluginFile) :
    (loadApiPlugins files).plugins.length =
      files.countP (loadsSuccessfully (isProdOf files)) := by
  rw [loadApiPlugins, runPlugins_characterization]
  simp [List.countP_eq_length_filter]

/-- C10: For every rule whose `rateLimit` sets `max` to `0` or `windowMs` to
`0` (without disabling the limiter), the constructed rule-scoped limiter
falls back to the defaults — `max` 100, `windowMs` 60000 — and more
generally the constructed limiter never has a zero `max` or a zero-length
window. -/
theorem rule_limiter_zero_defaults (cfg : RateLimitCfg) (options : ProxyOptions)
    (hrl : options.rateLimit = some cfg)
    (hen : cfg.enabled ≠ some false) :
    ∃ l, mkRuleLimiterOptions (some options) = some l ∧
      (cfg.max = some 0 → l.max = 100) ∧
      (cfg.windowMs = some 0 → l.windowMs = 60000) ∧
      l.max ≠ 0 ∧ l.windowMs ≠ 0 := by
  have hmk : mkRuleLimiterOptions (some options) = some
      { windowMs := intOr cfg.windowMs 60000
        max := intOr cfg.max 100
        message := .obj
          [("error", .str "Too many requests"),
           ("message", .str ("Please slow down. Maximum " ++ toString (intOr cfg.max 100)
              ++ " requests per " ++ toString (intOr cfg.windowMs 60000 / 1000)
              ++ " seconds."))] } := by
    unfold mkRuleLimiterOptions
    simp [hrl, hen]
  refine ⟨_, hmk, ?_, ?_, ?_, ?_⟩
  · intro h; simp [intOr, h]
  · intro h; simp [intOr, h]
  · cases hm : cfg.max with
    | none => simp [intOr, hm]
    | some v =>
      by_cases hv : v = 0 <;> simp [intOr, hm, hv]
  · cases hw : cfg.windowMs with
    | none => simp [intOr, hw]
    | some v =>
      by_cases hv : v = 0 <;> simp [intOr, hw, hv]

theorem loadApiPlugins_apiDir (cfg : Option (List ProxyConfig)) :
    (loadApiPlugins (apiDirFiles cfg)).entries =
      appConfigEntries ++ exampleEntries ++ helloEntries ++ proxyPlugin cfg := by
  rw [loadApiPlugins, runPlugins_characterization]
  have hf : (apiDirFiles cfg).filter (loadsSuccessfully (isProdOf (apiDirFiles cfg))) =
      [⟨"app.config.ts", .registers appConfigEntries⟩,
       ⟨"example.ts", .registers exampleEntries⟩,
       ⟨"hello.ts", .registers helloEntries⟩,
       ⟨"proxy.ts", .registers (proxyPlugin cfg)⟩] := rfl
  rw [hf]
  simp [fileEntries]

theorem tierOf_ruleEntries (rule : ProxyConfig) :
    ∀ e ∈ ruleEntries rule, tierOf e.kind = 2 := by
  intro e he
  unfold ruleEntries at he
  split at he
  · simp at he
  · split at he
    · simp at he
    · rcases List.mem_append.mp he with h1 | h2
      · split at h1
        · simp at h1
          subst h1
          rfl
        · simp at h1
      · simp at h2
        subst h2
        rfl

theorem tierOf_proxyPlugin (cfg : Option (List ProxyConfig)) :
    ∀ e ∈ proxyPlugin cfg, tierOf e.kind = 2 := by
  intro e he
  match cfg with
  | none => simp [proxyPlugin] at he
  | some rules =>
    rw [proxyPlugin_some] at he
    obtain ⟨rule, _, hmem⟩ := List.mem_flatMap.mp he
    exact tierOf_ruleEntries rule e hmem

theorem tier_bounds_loaded (cfg : Option (List ProxyConfig)) :
    ∀ e ∈ (loadApiPlugins (apiDirFiles cfg)).entries,
      1 ≤ tierOf e.kind ∧ tierOf e.kind ≤ 2 := by
  rw [loadApiPlugins_apiDir]
  intro e he
  rcases List.mem_append.mp he with h1 | h2
  · rcases List.mem_append.mp h1 with h3 | h4
    · rcases List.mem_append.mp h3 with h5 | h6
      · fin_cases h5 <;> exact ⟨by decide, by decide⟩
      · fin_cases h6 <;> exact ⟨by decide, by decide⟩
    · fin_cases h4 <;> exact ⟨by decide, by decide⟩
  · have := tierOf_proxyPlugin cfg e h2
    omega

/-- C1: For every loaded rule set, the server's route table is ordered by
tier — the middleware preamble, then plugin-registered routes, then the
proxy-rule layers (each rule-scoped limiter and forwarding handler), then
the static-file handler, then the SPA fallback — and dispatch takes the
first matching entry, so an entry anywhere in a prefix of the table that
matches a request pre-empts everything registered after that prefix. -/
theorem route_table_ordering (cfg : Option (List ProxyConfig)) :
    List.Pairwise (fun a b => tierOf a.kind ≤ tierOf b.kind) (serverRouteTable cfg) ∧
    ∀ (r : Request) (xs ys : List Entry), serverRouteTable cfg = xs ++ ys →
      (∃ e ∈ xs, e.matcher.matches r = true) →
      dispatch (serverRouteTable cfg) r = dispatch xs r := by
  constructor
  · have hb := tier_bounds_loaded cfg
    unfold serverRouteTable
    refine List.pairwise_cons.mpr ⟨?_, ?_⟩
    · intro e _he
      exact Nat.zero_le _
    refine List.pairwise_cons.mpr ⟨?_, ?_⟩
    · intro e _he
      exact Nat.zero_le _
    refine List.pairwise_cons.mpr ⟨?_, ?_⟩
    · intro e _he
      exact Nat.zero_le _
    refine List.pairwise_cons.mpr ⟨?_, ?_⟩
    · intro e he
      rcases List.mem_append.mp he with h1 | h2
      · exact (hb e h1).1
      · fin_cases h2 <;> decide
    · refine List.pairwise_append.mpr ⟨?_, ?_, ?_⟩
      · -- the loaded entries: tiers 1 (concrete plugins) then 2 (proxy layers)
        rw [loadApiPlugins_apiDir]
        refine List.pairwise_append.mpr ⟨?_, ?_, ?_⟩
        · refine List.pairwise_append.mpr ⟨?_, ?_, ?_⟩
          · refine List.pairwise_append.mpr ⟨?_, ?_, ?_⟩
            · decide
            · decide
            · intro a ha2 b hb2
              fin_cases ha2 <;> fin_cases hb2 <;> decide
          · decide
          · intro a ha2 b hb2
            rcases List.mem_append.mp ha2 with h1 | h1 <;> fin_cases h1 <;>
              fin_cases hb2 <;> decide
        · exact List.pairwise_of_forall_mem_list fun a ha2 b hb2 => by
            rw [tierOf_proxyPlugin cfg a ha2, tierOf_proxyPlugin cfg b hb2]
        · intro a ha2 b hb2
          have h2 := tierOf_proxyPlugin cfg b hb2
          rcases List.mem_append.mp ha2 with h1 | h1
          · rcases List.mem_append.mp h1 with h3 | h3
            · fin_cases h3 <;> (rw [h2]; decide)
            · fin_cases h3 <;> (rw [h2]; decide)
          · fin_cases h1 <;> (rw [h2]; decide)
      · decide
      · intro a ha2 b hb2
        have h1 := (hb a ha2).2
        fin_cases hb2 <;> exact h1.trans (by decide)
  · intro r xs ys hsplit hex
    rw [hsplit, dispatch, dispatch, List.find?_append]
    obtain ⟨e, he, hm⟩ := hex
    have hs : (xs.find? fun e => e.matcher.matches r).isSome :=
      List.find?_isSome.mpr ⟨e, he, hm⟩
    cases hf : xs.find? fun e => e.matcher.matches r with
    | none => rw [hf] at hs; simp at hs
    | some v => simp [hf]

/-! ## Witnesses -/

/-- Witness for C1 at the empty rule set: the preamble prefix of the table
contains an entry matching `GET /health`, so dispatch is decided inside that
prefix and nothing registered later is consulted. -/
theorem route_table_ordering_witness :
    dispatch (serverRouteTable none) ⟨"GET", "/health"⟩ =
      dispatch [⟨.globalLimiter, .any⟩, ⟨.cors, .any⟩, ⟨.jsonParser, .any⟩,
        ⟨.health, .route "GET" "/health"⟩] ⟨"GET", "/health"⟩ :=
  (route_table_ordering none).2 ⟨"GET", "/health"⟩
    [⟨.globalLimiter, .any⟩, ⟨.cors, .any⟩, ⟨.jsonParser, .any⟩,
      ⟨.health, .route "GET" "/health"⟩]
    ((loadApiPlugins (apiDirFiles none)).entries ++
      [⟨.staticFiles, .any⟩, ⟨.spaFallback, .any⟩])
    rfl
    ⟨⟨.globalLimiter, .any⟩, by decide, by decide⟩

/-- A sample rule-scoped rate-limit configuration (window 60 s, max 2). -/
def sampleRuleOptions : Option ProxyOptions :=
  some { rateLimit := some { windowMs := some 60000, max := some 2, enabled := none } }

/-- The limiter the proxy plugin constructs from `sampleRuleOptions`. -/
def sampleRuleLimiter : LimiterOptions :=
  { windowMs := 60000
    max := 2
    message := .obj
      [("error", .str "Too many requests"),
       ("message", .str "Please slow down. Maximum 2 requests per 60 seconds.")] }

/-- Witness for C3: a client with 2 prior requests in the rule's window and
none in the global window is denied by the rule tier with the rule-specific
message, which differs from the global message. -/
theorem rate_limit_tier_messages_witness :
    mountMatches "/api" "/api/ping" = true ∧
    ¬ ((currentCount sampleRuleLimiter ⟨[(("1.2.3.4", 0), 2)]⟩ "1.2.3.4" 0 + 1 : Nat) : Int) ≤
        sampleRuleLimiter.max ∧
    (handleThroughLimiters sampleRuleLimiter "/api" ⟨[]⟩ ⟨[(("1.2.3.4", 0), 2)]⟩
        "1.2.3.4" "/api/ping" 0).1 = .denied ⟨429, sampleRuleLimiter.message⟩ ∧
    sampleRuleLimiter.message ≠ globalLimiterOptions.message :=
  have h := rate_limit_tier_messages sampleRuleOptions sampleRuleLimiter "/api" rfl
    ⟨[]⟩ ⟨[(("1.2.3.4", 0), 2)]⟩ "1.2.3.4" "/api/ping" 0 (by decide) (by decide) (by decide)
  ⟨by decide, by decide, h.1, h.2.1⟩

/-- Witness for C4: a request carrying `Cookie: sid=1` and
`Authorization: Bearer xyz` to a proxied path yields an upstream request
carrying both, and a custom hook overriding `authorization` acts after the
built-in forwarding. -/
theorem auth_header_forwarding_witness :
    getHeader (onProxyReqHook none [("cookie", "sid=1"), ("authorization", "Bearer xyz")] [])
      "cookie" = some "sid=1" ∧
    getHeader (onProxyReqHook none [("cookie", "sid=1"), ("authorization", "Bearer xyz")] [])
      "authorization" = some "Bearer xyz" ∧
    onProxyReqHook (some fun hs => setHeader hs "authorization" "Bearer other")
        [("cookie", "sid=1"), ("authorization", "Bearer xyz")] [] =
      setHeader (onProxyReqHook none [("cookie", "sid=1"), ("authorization", "Bearer xyz")] [])
        "authorization" "Bearer other" :=
  ⟨(auth_header_forwarding [("cookie", "sid=1"), ("authorization", "Bearer xyz")] []).1
      "sid=1" rfl (by decide),
   (auth_header_forwarding [("cookie", "sid=1"), ("authorization", "Bearer xyz")] []).2.1
      "Bearer xyz" rfl (by decide),
   (auth_header_forwarding [("cookie", "sid=1"), ("authorization", "Bearer xyz")] []).2.2
      fun hs => setHeader hs "authorization" "Bearer other"⟩

/-- Witness for C7: a document parsing to an object whose `proxies` member
is a number yields no config and no registered proxy entries. -/
theorem config_load_atomic_witness :
    loadProxyConfig (fun _ => some (.obj [("proxies", .num 1)])) [] true "x" = none ∧
    proxyPluginFromFile (fun _ => some (.obj [("proxies", .num 1)])) [] true "x" = [] :=
  config_load_atomic (fun _ => some (.obj [("proxies", .num 1)])) [] "x"
    (by
      intro j hj xs
      injection hj with hh
      subst hh
      simp [Json.getMember])

/-- Witness for C8: with `a.ts` throwing, the later candidate `b.ts` is
still recorded and its route still registered. -/
theorem plugin_failure_isolation_witness :
    stripExt "b.ts" ∈ (loadApiPlugins ([] ++ ⟨"a.ts", .throws⟩ :: [] ++
      ⟨"b.ts", .registers [⟨.pluginRoute "b", .route "GET" "/x"⟩]⟩ :: [])).plugins ∧
    ∃ l1 l2, (loadApiPlugins ([] ++ ⟨"a.ts", .throws⟩ :: [] ++
      ⟨"b.ts", .registers [⟨.pluginRoute "b", .route "GET" "/x"⟩]⟩ :: [])).entries =
        l1 ++ [⟨.pluginRoute "b", .route "GET" "/x"⟩] ++ l2 :=
  plugin_failure_isolation [] [] [] ⟨"a.ts", .throws⟩
    ⟨"b.ts", .registers [⟨.pluginRoute "b", .route "GET" "/x"⟩]⟩
    [⟨.pluginRoute "b", .route "GET" "/x"⟩] rfl (by decide) rfl

/-- Witness for C10: a rule configuring `max: 0` and `windowMs: 0` without
disabling the limiter gets the default limiter (max 100, window 60000 ms). -/
theorem rule_limiter_zero_defaults_witness :
    (({ windowMs := some 0, max := some 0, enabled := none } : RateLimitCfg).enabled
      ≠ some false) ∧
    ∃ l, mkRuleLimiterOptions
        (some { rateLimit := some { windowMs := some 0, max := some 0, enabled := none } }) =
        some l ∧
      (({ windowMs := some 0, max := some 0, enabled := none } : RateLimitCfg).max = some 0 →
        l.max = 100) ∧
      (({ windowMs := some 0, max := some 0, enabled := none } : RateLimitCfg).windowMs = some 0 →
        l.windowMs = 60000) ∧
      l.max ≠ 0 ∧ l.windowMs ≠ 0 :=
  ⟨by decide,
   rule_limiter_zero_defaults { windowMs := some 0, max := some 0, enabled := none }
     { rateLimit := some { windowMs := some 0, max := some 0, enabled := none } }
     rfl (by decide)⟩

end PicoServe
